import Mathlib

/-!
Verification of the `resthttp` Go package (`src/resthttp/resthttp.go`).

The package is a thin wrapper around an HTTP client.  We shallowly embed the
parts the specification talks about:

* strings are Lean `String`s (Go strings are UTF-8 byte sequences; where byte
  level matters — base64, percent-encoding — we encode characters to their
  UTF-8 bytes explicitly);
* `http.Header` is embedded as a function from header name to the ordered
  list of values for that name (Go's `Header.Set` replaces the list,
  `Header.Add` appends; iteration order over distinct keys is irrelevant in
  this per-key view).  All header names used by the source are already in
  canonical MIME form, so Go's key canonicalisation is the identity here;
* `url.Values` (a Go map from key to value list) is embedded as an
  association list `List (String × List String)`; a real Go map has distinct
  keys and a nondeterministic iteration order, which the theorems model by
  quantifying over permutations of the list;
* the network, the filesystem and the multipart boundary (which Go draws at
  random) are parameters of each operation: a `NetEnv` says what
  `client.Do` and `ioutil.ReadAll` produce, an `UploadEnv` additionally maps
  paths to file contents, an `FsEnv` says whether `os.Create` / `io.Copy`
  succeed.  Each embedded method returns, besides its Go return value, the
  observable effects the claims are about (the URL of the executed request,
  the headers attached to it, the file written, the handles still open).
-/

namespace Resthttp

/-- Bytes are naturals < 256; arithmetic stays in `Nat`. -/
abbrev Bytes := List Nat

/-- UTF-8 encoding of one character (Go strings are UTF-8 byte sequences). -/
def utf8Bytes (c : Char) : List Nat :=
  let n := c.toNat
  if n < 0x80 then [n]
  else if n < 0x800 then
    [0xC0 ||| (n >>> 6), 0x80 ||| (n &&& 0x3F)]
  else if n < 0x10000 then
    [0xE0 ||| (n >>> 12), 0x80 ||| ((n >>> 6) &&& 0x3F), 0x80 ||| (n &&& 0x3F)]
  else
    [0xF0 ||| (n >>> 18), 0x80 ||| ((n >>> 12) &&& 0x3F),
     0x80 ||| ((n >>> 6) &&& 0x3F), 0x80 ||| (n &&& 0x3F)]

/-- The UTF-8 bytes of a string, as Go's `[]byte(s)` produces them. -/
def strBytes (s : String) : Bytes :=
  (s.data.map utf8Bytes).flatten

/-- The standard base64 alphabet used by Go's `base64.StdEncoding`. -/
def b64Alphabet : List Char :=
  "ABCDEFGHIJKLMNOPQRSTUVWXYZabcdefghijklmnopqrstuvwxyz0123456789+/".data

def b64Char (n : Nat) : Char := b64Alphabet.getD n 'A'

/-- `base64.StdEncoding.EncodeToString`: 3 input bytes become 4 alphabet
characters; a 1- or 2-byte tail is padded with `=`. -/
def base64Encode : Bytes → String
  | [] => ""
  | [b0] =>
    String.mk [b64Char (b0 / 4), b64Char (b0 % 4 * 16), '=', '=']
  | [b0, b1] =>
    String.mk [b64Char (b0 / 4), b64Char (b0 % 4 * 16 + b1 / 16),
               b64Char (b1 % 16 * 4), '=']
  | b0 :: b1 :: b2 :: rest =>
    String.mk [b64Char (b0 / 4), b64Char (b0 % 4 * 16 + b1 / 16),
               b64Char (b1 % 16 * 4 + b2 / 64), b64Char (b2 % 64)]
      ++ base64Encode rest

/-- Go `strings.TrimRight(s, cutset)` for a single-character cutset. -/
def goTrimRight (s : String) (c : Char) : String :=
  String.mk ((s.data.reverse.dropWhile (· == c)).reverse)

/-- Go `strings.Trim(s, cutset)` for a single-character cutset. -/
def goTrim (s : String) (c : Char) : String :=
  String.mk (((s.data.dropWhile (· == c)).reverse.dropWhile (· == c)).reverse)

/-- Go `filepath.Base` (unix separator), as used for default multipart names. -/
def filepathBase (path : String) : String :=
  if path = "" then "."
  else
    let p := (path.data.reverse.dropWhile (· == '/')).reverse
    let name := (p.reverse.takeWhile (· != '/')).reverse
    if name = [] then "/" else String.mk name

/-- Go `strings.ReplaceAll(s, "\\", "/")` (single-character pattern, so a map). -/
def replaceBackslashes (s : String) : String :=
  String.mk (s.data.map fun c => if c = '\\' then '/' else c)

/-! ## Headers (`net/http.Header`) -/

/-- `http.Header`, viewed per key: the ordered list of values of each name. -/
def Header := String → List String

def Header.empty : Header := fun _ => []

/-- `Header.Set` replaces the whole value list of the key. -/
def Header.set (h : Header) (k v : String) : Header :=
  fun k' => if k' = k then [v] else h k'

/-- `Header.Add` appends the value at the end of the key's list. -/
def Header.add (h : Header) (k v : String) : Header :=
  fun k' => if k' = k then h k' ++ [v] else h k'

/-! ## Query values (`net/url.Values`) -/

/-- `url.Values`: a map from key to ordered value list, as an association
list.  A Go map has distinct keys; theorems that depend on map semantics
assume `(q.map Prod.fst).Nodup`. -/
abbrev QueryValues := List (String × List String)

def hexUpper (n : Nat) : Char := "0123456789ABCDEF".data.getD n '0'

/-- `%XX` escape of one byte, uppercase hex as Go emits. -/
def percentByte (b : Nat) : String :=
  String.mk ['%', hexUpper (b / 16), hexUpper (b % 16)]

/-- Characters Go's `url.QueryEscape` leaves untouched. -/
def isUnreservedQueryChar (c : Char) : Bool :=
  (decide ('A' ≤ c) && decide (c ≤ 'Z')) ||
  (decide ('a' ≤ c) && decide (c ≤ 'z')) ||
  (decide ('0' ≤ c) && decide (c ≤ '9')) ||
  c == '-' || c == '_' || c == '.' || c == '~'

/-- Go `url.QueryEscape`: space becomes `+`, unreserved characters stay,
every other character is `%XX`-escaped byte-by-byte over its UTF-8 bytes. -/
def queryEscape (s : String) : String :=
  String.join (s.data.map fun c =>
    if c = ' ' then "+"
    else if isUnreservedQueryChar c then String.mk [c]
    else String.join ((utf8Bytes c).map percentByte))

/-- The `k=v` pairs one key contributes to `url.Values.Encode`. -/
def encodePair (kv : String × List String) : List String :=
  kv.2.map fun v => queryEscape kv.1 ++ "=" ++ queryEscape v

/-- Ordering of `url.Values` entries by key, as `Encode`'s key sort. -/
def kle (a b : String × List String) : Prop := a.1 ≤ b.1

instance : DecidableRel kle := fun a b =>
  inferInstanceAs (Decidable (a.1 ≤ b.1))

instance : IsTotal (String × List String) kle :=
  ⟨fun a b => le_total a.1 b.1⟩

instance : IsTrans (String × List String) kle :=
  ⟨fun _ _ _ h1 h2 => le_trans h1 h2⟩

/-- Go `url.Values.Encode()`: keys sorted, each key's values in order,
`escape(k)=escape(v)` pairs joined by `&`.  (Go sorts the key set and looks
each key up; for the distinct keys of a map this equals sorting the entries
by key, which is how we embed it.) -/
def encodeValues (q : QueryValues) : String :=
  String.intercalate "&" (((List.insertionSort kle q).map encodePair).flatten)

/-! ## The client (`RestHttp`) -/

structure RestHttp where
  BaseURL : String
  BaseHeaders : Header
  User : String
  Password : String
  VerifySSL : Bool
  DebugPrint : Bool
  Timeout : Int

/-- `NewRestHttp`: trailing slashes stripped from the base URL, an `Accept`
default always set, and a basic-auth `Authorization` header when both user
and password are non-empty. -/
def NewRestHttp (baseURL user password : String) (sslVerify debugPrint : Bool)
    (timeout : Int) : RestHttp :=
  let baseURL := goTrimRight baseURL '/'
  let headers := Header.empty.set "Accept" "application/json"
  let headers :=
    if user ≠ "" ∧ password ≠ "" then
      headers.set "Authorization"
        ("Basic " ++ base64Encode (strBytes (user ++ ":" ++ password)))
    else headers
  { BaseURL := baseURL, BaseHeaders := headers, User := user,
    Password := password, VerifySSL := sslVerify, DebugPrint := debugPrint,
    Timeout := timeout }

/-- `setHeaders`: every value of every base header is `Add`ed to the request
headers, so per key the request's own values come first and the base values
follow in order. -/
def RestHttp.setHeaders (r : RestHttp) (req : Header) : Header :=
  fun k => req k ++ r.BaseHeaders k

/-- `MakeURL`: base URL, then the container (slash-trimmed) when non-empty,
then the resource — an empty resource still contributes an empty trailing
segment — joined by `/`; a non-nil query is appended after `?`. -/
def RestHttp.MakeURL (r : RestHttp) (container resource : String)
    (queryItems : Option QueryValues) : String :=
  let parts : List String := [r.BaseURL]
  let parts := if container ≠ "" then parts ++ [goTrim container '/'] else parts
  let parts := if resource ≠ "" then parts ++ [resource] else parts ++ [""]
  let urlStr := String.intercalate "/" parts
  match queryItems with
  | some q => urlStr ++ "?" ++ encodeValues q
  | none => urlStr

/-! ## Environments: network, filesystem, multipart boundary -/

/-- A transport-level failure from `client.Do` or `ioutil.ReadAll`. -/
structure TransportError where
  msg : String
deriving DecidableEq

/-- An `*http.Response` as far as the wrapper observes it. -/
structure HttpResponse where
  StatusCode : Nat
  Status : String
  Body : Bytes
deriving DecidableEq

/-- What the network does to this one request: the outcome of `client.Do`
and, when a body is read, the outcome of `ioutil.ReadAll` / `io.Copy` on it
(a successful read yields exactly `Body`). -/
structure NetEnv where
  doResult : Except TransportError HttpResponse
  readResult : Except TransportError Unit

instance {ε α : Type} [DecidableEq ε] [DecidableEq α] :
    DecidableEq (Except ε α) := fun a b =>
  match a, b with
  | .error x, .error y =>
    if h : x = y then isTrue (by rw [h])
    else isFalse (fun hc => h (Except.error.inj hc))
  | .error _, .ok _ => isFalse (fun hc => Except.noConfusion hc)
  | .ok _, .error _ => isFalse (fun hc => Except.noConfusion hc)
  | .ok x, .ok y =>
    if h : x = y then isTrue (by rw [h])
    else isFalse (fun hc => h (Except.ok.inj hc))

/-! ## Verb methods -/

/-- What a verb method builds and returns: the URL and headers of the
executed request, the request body it sent (when it has one), and the Go
return value. -/
structure MethodOutput where
  url : String
  headers : Header
  reqBody : Option String
  result : Except TransportError Bytes

/-- `HeadRequest`: build URL without query, default headers only, return the
numeric status code of whatever response arrives (no status inspection, no
body read). -/
def RestHttp.HeadRequest (r : RestHttp) (container resource : String)
    (env : NetEnv) : Except TransportError Nat :=
  let _url := r.MakeURL container resource none
  match env.doResult with
  | .error e => .error e
  | .ok resp => .ok resp.StatusCode

/-- `GetRequest`: URL with query; a non-empty `accept` is `Set` on the fresh
request headers, then the defaults are `Add`ed; the body is read and
returned whatever the status was.  (`toLower` is accepted and ignored, as in
the source.) -/
def RestHttp.GetRequest (r : RestHttp) (container resource : String)
    (queryItems : Option QueryValues) (accept : String) (_toLower : Bool)
    (env : NetEnv) : MethodOutput :=
  let url := r.MakeURL container resource queryItems
  let h := Header.empty
  let h := if accept ≠ "" then h.set "Accept" accept else h
  let h := r.setHeaders h
  let result : Except TransportError Bytes :=
    match env.doResult with
    | .error e => .error e
    | .ok resp =>
      match env.readResult with
      | .error e => .error e
      | .ok _ => .ok resp.Body
  { url := url, headers := h, reqBody := none, result := result }

/-- `PostRequest`: URL without query, params form-encoded into the body,
`Content-Type` set, then a non-empty `accept` set, then defaults added; body
returned whatever the status was. -/
def RestHttp.PostRequest (r : RestHttp) (container resource : String)
    (params : QueryValues) (accept : String) (env : NetEnv) : MethodOutput :=
  let url := r.MakeURL container resource none
  let h := Header.empty.set "Content-Type" "application/x-www-form-urlencoded"
  let h := if accept ≠ "" then h.set "Accept" accept else h
  let h := r.setHeaders h
  let result : Except TransportError Bytes :=
    match env.doResult with
    | .error e => .error e
    | .ok resp =>
      match env.readResult with
      | .error e => .error e
      | .ok _ => .ok resp.Body
  { url := url, headers := h, reqBody := some (encodeValues params),
    result := result }

/-- `PutRequest`: same shape as `PostRequest` with method PUT. -/
def RestHttp.PutRequest (r : RestHttp) (container resource : String)
    (params : QueryValues) (accept : String) (env : NetEnv) : MethodOutput :=
  let url := r.MakeURL container resource none
  let h := Header.empty.set "Content-Type" "application/x-www-form-urlencoded"
  let h := if accept ≠ "" then h.set "Accept" accept else h
  let h := r.setHeaders h
  let result : Except TransportError Bytes :=
    match env.doResult with
    | .error e => .error e
    | .ok resp =>
      match env.readResult with
      | .error e => .error e
      | .ok _ => .ok resp.Body
  { url := url, headers := h, reqBody := some (encodeValues params),
    result := result }

/-- `DeleteRequest`: URL with query, non-empty `accept` set then defaults
added, body returned whatever the status was. -/
def RestHttp.DeleteRequest (r : RestHttp) (container resource : String)
    (queryItems : Option QueryValues) (accept : String) (env : NetEnv) :
    MethodOutput :=
  let url := r.MakeURL container resource queryItems
  let h := Header.empty
  let h := if accept ≠ "" then h.set "Accept" accept else h
  let h := r.setHeaders h
  let result : Except TransportError Bytes :=
    match env.doResult with
    | .error e => .error e
    | .ok resp =>
      match env.readResult with
      | .error e => .error e
      | .ok _ => .ok resp.Body
  { url := url, headers := h, reqBody := none, result := result }

/-! ## File download -/

/-- `DownloadFile`'s error value: transport failure, the distinguished HTTP
error (`NewRestHttpError(status, reason, "", "")`), or a local file error. -/
inductive DlError where
  | transport (e : TransportError)
  | httpError (status : Nat) (reason : String)
  | createFailed
  | copyFailed
deriving DecidableEq

/-- The destination file at the moment `DownloadFile` returns. -/
inductive FileOutcome where
  | noFile
  | partialFile (path : String)
  | fullFile (path : String) (content : Bytes)
deriving DecidableEq

/-- Outcomes of `os.Create` and `io.Copy` for the download path. -/
structure FsEnv where
  createResult : Except String Unit
  copyResult : Except String Unit

structure DownloadOutput where
  url : String
  headers : Header
  file : FileOutcome
  result : Except DlError Unit

/-- `DownloadFile`: backslashes in the resource normalised; URL built via
`MakeURL` (query included) and then, for a non-nil non-empty query, the
encoded query appended a second time; the default headers are cloned and a
non-empty `accept` is `Set` on the clone, but the clone is never attached to
the request — only `setHeaders` runs on the fresh request; a status ≥ 300
returns the HTTP error before any file is created; otherwise the body is
streamed to the save path. -/
def RestHttp.DownloadFile (r : RestHttp)
    (container resource savePath accept : String)
    (queryItems : Option QueryValues) (env : NetEnv) (fs : FsEnv) :
    DownloadOutput :=
  let resource := replaceBackslashes resource
  let url := r.MakeURL container resource queryItems
  let savePath :=
    if savePath = "" then (resource.splitOn "/").getLastD "" else savePath
  let _clonedHeaders :=
    if accept ≠ "" then r.BaseHeaders.set "Accept" accept else r.BaseHeaders
  let url :=
    match queryItems with
    | some q => if q ≠ [] then url ++ "?" ++ encodeValues q else url
    | none => url
  let headers := r.setHeaders Header.empty
  match env.doResult with
  | .error e =>
    { url := url, headers := headers, file := .noFile,
      result := .error (.transport e) }
  | .ok resp =>
    if 300 ≤ resp.StatusCode then
      { url := url, headers := headers, file := .noFile,
        result := .error (.httpError resp.StatusCode resp.Status) }
    else
      match fs.createResult with
      | .error _ =>
        { url := url, headers := headers, file := .noFile,
          result := .error .createFailed }
      | .ok _ =>
        match fs.copyResult with
        | .error _ =>
          { url := url, headers := headers, file := .partialFile savePath,
            result := .error .copyFailed }
        | .ok _ =>
          { url := url, headers := headers,
            file := .fullFile savePath resp.Body, result := .ok () }

/-! ## Multipart uploads -/

/-- `multipart.Writer.FormDataContentType()` for the writer's boundary.  Go
draws the boundary at random (30 hex bytes, never needing quoting), so the
boundary is a parameter of the embedded upload methods. -/
def formDataContentType (boundary : String) : String :=
  "multipart/form-data; boundary=" ++ boundary

/-- Failures of the upload methods. -/
inductive UploadError where
  | notFound (path : String)
  | openFailed (path : String)
  | transport (e : TransportError)
deriving DecidableEq

/-- The filesystem and network as the upload methods see them: `os.Open`
(and `os.Stat`) succeed on a path exactly when `openFile` returns its
content, plus the transport outcomes. -/
structure UploadEnv where
  openFile : String → Option Bytes
  doResult : Except TransportError HttpResponse
  readResult : Except TransportError Unit

/-- `os.Stat`-based existence test used by `UploadFileMP`. -/
def fileExists (env : UploadEnv) (path : String) : Bool :=
  (env.openFile path).isSome

/-- An already-open `*os.File`, as `UploadFile` receives one. -/
structure GoFile where
  name : String
  content : Bytes

/-- What an upload method did: its Go return value, whether the POST was
handed to the transport, the file part names written into the multipart
body, and the handles (identified by source path) still open on return. -/
structure UploadOutput where
  result : Except UploadError Bytes
  requestIssued : Bool
  formFileNames : List String
  headers : Option Header
  openAtReturn : List String

/-- `UploadFile`: the given open file becomes the single `file` part (named
by the base of its name), extra params become fields, and the request's
`Content-Type` is set to the writer's boundary content type — the
`contentType` argument is never used.  The method neither opens nor closes
the file it is handed. -/
def RestHttp.UploadFile (r : RestHttp) (container resource : String)
    (_params : QueryValues) (_contentType : String) (file : GoFile)
    (env : UploadEnv) (boundary : String) : UploadOutput :=
  let _url := r.MakeURL container resource none
  let partName := filepathBase file.name
  let headers := r.setHeaders
    (Header.empty.set "Content-Type" (formDataContentType boundary))
  match env.doResult with
  | .error e =>
    { result := .error (.transport e), requestIssued := true,
      formFileNames := [partName], headers := some headers,
      openAtReturn := [] }
  | .ok resp =>
    match env.readResult with
    | .error e =>
      { result := .error (.transport e), requestIssued := true,
        formFileNames := [partName], headers := some headers,
        openAtReturn := [] }
    | .ok _ =>
      { result := .ok resp.Body, requestIssued := true,
        formFileNames := [partName], headers := some headers,
        openAtReturn := [] }

/-- `UploadFileMP`: existence check first (failing with the `file not
found: path` error before any network activity), destination name defaulted
to the source's base name, content type defaulted and then overwritten by
the writer's boundary content type before reaching the request; the one
opened handle is closed on every exit path by `defer file.Close()`. -/
def RestHttp.UploadFileMP (r : RestHttp)
    (container srcFilePath dstName contentType : String) (env : UploadEnv)
    (boundary : String) : UploadOutput :=
  if ¬ fileExists env srcFilePath then
    { result := .error (.notFound srcFilePath), requestIssued := false,
      formFileNames := [], headers := none, openAtReturn := [] }
  else
    let dstName := if dstName = "" then filepathBase srcFilePath else dstName
    let _contentType :=
      if contentType = "" then "application/octet.stream" else contentType
    let _url := r.MakeURL container "" none
    match env.openFile srcFilePath with
    | none =>
      { result := .error (.openFailed srcFilePath), requestIssued := false,
        formFileNames := [], headers := none, openAtReturn := [] }
    | some _content =>
      let contentType := formDataContentType boundary
      let headers := r.setHeaders (Header.empty.set "Content-Type" contentType)
      match env.doResult with
      | .error e =>
        { result := .error (.transport e), requestIssued := true,
          formFileNames := [dstName], headers := some headers,
          openAtReturn := [] }
      | .ok resp =>
        match env.readResult with
        | .error e =>
          { result := .error (.transport e), requestIssued := true,
            formFileNames := [dstName], headers := some headers,
            openAtReturn := [] }
        | .ok _ =>
          { result := .ok resp.Body, requestIssued := true,
            formFileNames := [dstName], headers := some headers,
            openAtReturn := [] }

/-- The open/copy loop of `UploadFiles` over the map's entries.  When an
`os.Open` fails the function returns at once — the handles opened in the
earlier iterations are NOT closed there (only the per-iteration
`file.Close()` calls on `CreateFormFile`/`io.Copy` errors exist, and those
steps cannot fail when writing into an in-memory buffer).  On success every
opened handle's closer is appended to `fileCloseFuncs`, mirrored here by
returning the list of opened paths. -/
def uploadFilesLoop (env : UploadEnv) :
    List (String × String) → List String → List String →
    Except (String × List String) (List String × List String)
  | [], opened, parts => .ok (opened, parts)
  | (srcPath, dstName) :: rest, opened, parts =>
    let dstName := if dstName = "" then filepathBase srcPath else dstName
    match env.openFile srcPath with
    | none => .error (srcPath, opened)
    | some _ =>
      uploadFilesLoop env rest (opened ++ [srcPath]) (parts ++ [dstName])

/-- `UploadFiles`: opens every source, adds each as a `files` part, sends a
single POST.  The collected `fileCloseFuncs` run only on the
request-construction, transport and body-read error paths; the successful
return and the mid-loop open-failure return leave the opened handles open
(`openAtReturn`). -/
def RestHttp.UploadFiles (r : RestHttp) (container : String)
    (srcDstMap : List (String × String)) (contentType : String)
    (env : UploadEnv) (boundary : String) : UploadOutput :=
  let _contentType :=
    if contentType = "" then "application/octet.stream" else contentType
  let _url := r.MakeURL container "" none
  match uploadFilesLoop env srcDstMap [] [] with
  | .error (srcPath, opened) =>
    { result := .error (.openFailed srcPath), requestIssued := false,
      formFileNames := [], headers := none, openAtReturn := opened }
  | .ok (opened, parts) =>
    let contentType := formDataContentType boundary
    let headers := r.setHeaders (Header.empty.set "Content-Type" contentType)
    match env.doResult with
    | .error e =>
      { result := .error (.transport e), requestIssued := true,
        formFileNames := parts, headers := some headers, openAtReturn := [] }
    | .ok resp =>
      match env.readResult with
      | .error e =>
        { result := .error (.transport e), requestIssued := true,
          formFileNames := parts, headers := some headers,
          openAtReturn := [] }
      | .ok _ =>
        { result := .ok resp.Body, requestIssued := true,
          formFileNames := parts, headers := some headers,
          openAtReturn := opened }

/-! ## Concrete sample environments used by the evaluation theorems -/

def respOk : HttpResponse :=
  { StatusCode := 200, Status := "200 OK", Body := [104, 105] }

def resp404 : HttpResponse :=
  { StatusCode := 404, Status := "404 Not Found", Body := [] }

def netOk : NetEnv := { doResult := .ok respOk, readResult := .ok () }

def net404 : NetEnv := { doResult := .ok resp404, readResult := .ok () }

def fsOk : FsEnv := { createResult := .ok (), copyResult := .ok () }

def sampleClient : RestHttp := NewRestHttp "http://h" "" "" true false 0

/-! ## Helper lemmas -/

/-- `url.Values.Encode` does not depend on the iteration order of the map:
for association lists with distinct keys that are permutations of each
other, the encodings agree. -/
theorem encodeValues_perm (q₁ q₂ : QueryValues) (hperm : q₁.Perm q₂)
    (hnd : (q₁.map Prod.fst).Nodup) : encodeValues q₁ = encodeValues q₂ := by
  have klt_of : ∀ {a b : String × List String}, kle a b ∧ a.1 ≠ b.1 → a.1 < b.1 :=
    fun h => lt_of_le_of_ne h.1 h.2
  have hp : (List.insertionSort kle q₁).Perm (List.insertionSort kle q₂) :=
    ((List.perm_insertionSort kle q₁).trans hperm).trans
      (List.perm_insertionSort kle q₂).symm
  have hnd₁ : List.Pairwise (fun a b : String × List String => a.1 ≠ b.1)
      (List.insertionSort kle q₁) := by
    have h1 : (q₁.map Prod.fst).Perm ((List.insertionSort kle q₁).map Prod.fst) :=
      ((List.perm_insertionSort kle q₁).map Prod.fst).symm
    exact List.pairwise_map.mp (h1.nodup hnd)
  have hnd₂ : List.Pairwise (fun a b : String × List String => a.1 ≠ b.1)
      (List.insertionSort kle q₂) := by
    have h1 : (q₁.map Prod.fst).Perm ((List.insertionSort kle q₂).map Prod.fst) :=
      (hperm.map Prod.fst).trans ((List.perm_insertionSort kle q₂).map Prod.fst).symm
    exact List.pairwise_map.mp (h1.nodup hnd)
  have hlt₁ : List.Sorted (fun a b : String × List String => a.1 < b.1)
      (List.insertionSort kle q₁) :=
    ((List.sorted_insertionSort kle q₁).and hnd₁).imp klt_of
  have hlt₂ : List.Sorted (fun a b : String × List String => a.1 < b.1)
      (List.insertionSort kle q₂) :=
    ((List.sorted_insertionSort kle q₂).and hnd₂).imp klt_of
  haveI : IsAntisymm (String × List String) (fun a b => a.1 < b.1) :=
    ⟨fun _ _ h1 h2 => absurd (lt_trans h1 h2) (lt_irrefl _)⟩
  have hs : List.insertionSort kle q₁ = List.insertionSort kle q₂ :=
    List.eq_of_perm_of_sorted hp hlt₁ hlt₂
  simp [encodeValues, hs]

/-- The head surviving a `dropWhile` falsifies the predicate. -/
theorem head_dropWhile_false {α : Type} {p : α → Bool} :
    ∀ (l : List α) {a : α}, (l.dropWhile p).head? = some a → p a = false := by
  intro l
  induction l with
  | nil => intro a h; simp [List.dropWhile] at h
  | cons x xs ih =>
    intro a h
    by_cases hx : p x
    · rw [List.dropWhile_cons_of_pos hx] at h
      exact ih h
    · rw [List.dropWhile_cons_of_neg hx] at h
      simp only [List.head?_cons, Option.some.injEq] at h
      rw [← h]
      exact Bool.of_not_eq_true hx

/-! ## Claims -/

/-- C5: with no query items, `MakeURL` joins the base URL, the container
(stripped of leading and trailing slashes, and omitted entirely when empty)
and the verbatim resource with `/`; an empty resource still contributes a
trailing empty segment, so the result ends in `/`, and a non-empty resource
adds no trailing slash beyond the resource itself. -/
theorem makeURL_join_spec (r : RestHttp) (container resource : String) :
    (container = "" →
      r.MakeURL container resource none = r.BaseURL ++ "/" ++ resource)
    ∧ (container ≠ "" →
      r.MakeURL container resource none =
        r.BaseURL ++ "/" ++ goTrim container '/' ++ "/" ++ resource)
    ∧ (resource = "" → ∃ p, r.MakeURL container resource none = p ++ "/") := by
  have hpair : ∀ a b : String, String.intercalate "/" [a, b] = a ++ "/" ++ b :=
    fun _ _ => rfl
  have htrip : ∀ a b c : String,
      String.intercalate "/" [a, b, c] = a ++ "/" ++ b ++ "/" ++ c :=
    fun _ _ _ => rfl
  refine ⟨?_, ?_, ?_⟩
  · intro hc
    by_cases hr : resource = "" <;>
      simp [RestHttp.MakeURL, hc, hr, hpair, htrip]
  · intro hc
    by_cases hr : resource = "" <;>
      simp [RestHttp.MakeURL, hc, hr, hpair, htrip]
  · intro hr
    by_cases hc : container = ""
    · exact ⟨r.BaseURL, by simp [RestHttp.MakeURL, hc, hr, hpair, htrip]⟩
    · exact ⟨r.BaseURL ++ "/" ++ goTrim container '/',
        by simp [RestHttp.MakeURL, hc, hr, hpair, htrip]⟩

/-- C5 witness: the URL-building law evaluated at concrete inputs. -/
theorem makeURL_join_spec_witness :
    sampleClient.MakeURL "" "v1" none = sampleClient.BaseURL ++ "/" ++ "v1"
    ∧ sampleClient.MakeURL "/api/" "v1" none =
        sampleClient.BaseURL ++ "/" ++ goTrim "/api/" '/' ++ "/" ++ "v1"
    ∧ (∃ p, sampleClient.MakeURL "api" "" none = p ++ "/")
    ∧ sampleClient.MakeURL "/api/" "v1" none = "http://h/api/v1"
    ∧ sampleClient.MakeURL "api" "" none = "http://h/api/" :=
  ⟨(makeURL_join_spec sampleClient "" "v1").1 rfl,
   (makeURL_join_spec sampleClient "/api/" "v1").2.1 (by decide),
   (makeURL_join_spec sampleClient "api" "").2.2 rfl,
   by decide, by decide⟩

/-- Concrete `url.Values` used by the C6 witness: the same two-key map in
its two possible iteration orders. -/
def qBA : QueryValues := [("b", ["2"]), ("a", ["1"])]

def qAB : QueryValues := [("a", ["1"]), ("b", ["2"])]

/-- C6: a non-nil query is appended to the URL after `?`; the encoding does
not depend on the iteration order of the (distinct-key) map; and the query
string is the `&`-join of the percent-encoded `k=v` pairs of a key-sorted
arrangement of the map. -/
theorem makeURL_query_deterministic (r : RestHttp) (container resource : String)
    (q₁ q₂ : QueryValues) (hperm : q₁.Perm q₂)
    (hnd : (q₁.map Prod.fst).Nodup) :
    r.MakeURL container resource (some q₁) =
      r.MakeURL container resource none ++ "?" ++ encodeValues q₁
    ∧ encodeValues q₁ = encodeValues q₂
    ∧ ∃ q', q'.Perm q₁ ∧ List.Sorted kle q'
        ∧ encodeValues q₁ =
            String.intercalate "&" ((q'.map encodePair).flatten) :=
  ⟨rfl, encodeValues_perm q₁ q₂ hperm hnd,
   List.insertionSort kle q₁, List.perm_insertionSort kle q₁,
   List.sorted_insertionSort kle q₁, rfl⟩

/-- C6 witness: determinism and the concrete sorted, percent-encoded query
string for a two-key map given in both iteration orders. -/
theorem makeURL_query_deterministic_witness :
    sampleClient.MakeURL "c" "r" (some qBA) =
      sampleClient.MakeURL "c" "r" none ++ "?" ++ encodeValues qBA
    ∧ encodeValues qBA = encodeValues qAB
    ∧ encodeValues qBA = "a=1&b=2" :=
  have hab : ¬ kle ("b", ["2"]) ("a", ["1"]) := by
    simp only [kle, String.le_iff_toList_le]
    decide
  have hs : List.insertionSort kle qBA = qAB := by
    simp [qBA, qAB, List.insertionSort, List.orderedInsert, hab]
  ⟨(makeURL_query_deterministic sampleClient "c" "r" qBA qAB (by decide)
      (by decide)).1,
   (makeURL_query_deterministic sampleClient "c" "r" qBA qAB (by decide)
      (by decide)).2.1,
   by rw [encodeValues, hs]; decide⟩

/-- C4: `HeadRequest` returns only the numeric status code, whatever it is;
`GetRequest`, `PostRequest`, `PutRequest` and `DeleteRequest` return the
response body for every status (no status is turned into an error); only
`DownloadFile` rejects statuses ≥ 300. -/
theorem verb_methods_ignore_http_status (r : RestHttp)
    (container resource savePath accept : String) (q : Option QueryValues)
    (params : QueryValues) (tl : Bool) (env : NetEnv) (fs : FsEnv)
    (resp : HttpResponse) (hdo : env.doResult = .ok resp)
    (hread : env.readResult = .ok ()) :
    r.HeadRequest container resource env = .ok resp.StatusCode
    ∧ (r.GetRequest container resource q accept tl env).result = .ok resp.Body
    ∧ (r.PostRequest container resource params accept env).result =
        .ok resp.Body
    ∧ (r.PutRequest container resource params accept env).result =
        .ok resp.Body
    ∧ (r.DeleteRequest container resource q accept env).result = .ok resp.Body
    ∧ (300 ≤ resp.StatusCode →
        (r.DownloadFile container resource savePath accept none env fs).result
          = .error (.httpError resp.StatusCode resp.Status)) := by
  refine ⟨?_, ?_, ?_, ?_, ?_, fun h => ?_⟩ <;>
    simp [RestHttp.HeadRequest, RestHttp.GetRequest, RestHttp.PostRequest,
      RestHttp.PutRequest, RestHttp.DeleteRequest, RestHttp.DownloadFile,
      hdo, hread, *]

/-- C4 witness: a 404 response is returned as status by HEAD and as body by
the four verb methods, and rejected only by the download path. -/
theorem verb_methods_ignore_http_status_witness :
    sampleClient.HeadRequest "c" "r" net404 = .ok resp404.StatusCode
    ∧ (sampleClient.GetRequest "c" "r" none "" false net404).result =
        .ok resp404.Body
    ∧ (sampleClient.PostRequest "c" "r" [] "" net404).result = .ok resp404.Body
    ∧ (sampleClient.PutRequest "c" "r" [] "" net404).result = .ok resp404.Body
    ∧ (sampleClient.DeleteRequest "c" "r" none "" net404).result =
        .ok resp404.Body
    ∧ (300 ≤ resp404.StatusCode →
        (sampleClient.DownloadFile "c" "r" "f" "" none net404 fsOk).result =
          .error (.httpError resp404.StatusCode resp404.Status)) :=
  verb_methods_ignore_http_status sampleClient "c" "r" "f" "" none [] false
    net404 fsOk resp404 rfl rfl

/-- C3: when the response status is ≥ 300, `DownloadFile` fails with the
HTTP error carrying the numeric status and the status-line text and no
destination file is created; when the status is < 300 and the local file
operations succeed, the destination file's bytes equal the response body
exactly. -/
theorem downloadFile_status_check (r : RestHttp)
    (container resource savePath accept : String) (q : Option QueryValues)
    (env : NetEnv) (fs : FsEnv) (resp : HttpResponse)
    (hdo : env.doResult = .ok resp) :
    (300 ≤ resp.StatusCode →
      (r.DownloadFile container resource savePath accept q env fs).result =
        .error (.httpError resp.StatusCode resp.Status)
      ∧ (r.DownloadFile container resource savePath accept q env fs).file =
        .noFile)
    ∧ (resp.StatusCode < 300 → fs.createResult = .ok () →
        fs.copyResult = .ok () →
      ∃ path,
        (r.DownloadFile container resource savePath accept q env fs).file =
          .fullFile path resp.Body
        ∧ (r.DownloadFile container resource savePath accept q env fs).result
          = .ok ()) := by
  constructor
  · intro h
    constructor <;> simp [RestHttp.DownloadFile, hdo, h]
  · intro h hc hcp
    refine ⟨if savePath = ""
      then ((replaceBackslashes resource).splitOn "/").getLastD ""
      else savePath, ?_, ?_⟩ <;>
      simp [RestHttp.DownloadFile, hdo, Nat.not_le.mpr h, hc, hcp]

/-- C3 witness: 404 fails with the HTTP error and no file; 200 writes the
body to the requested path. -/
theorem downloadFile_status_check_witness :
    ((sampleClient.DownloadFile "c" "r" "f" "" none net404 fsOk).result =
        .error (.httpError 404 "404 Not Found")
      ∧ (sampleClient.DownloadFile "c" "r" "f" "" none net404 fsOk).file =
        .noFile)
    ∧ (∃ path,
        (sampleClient.DownloadFile "c" "r" "f" "" none netOk fsOk).file =
          .fullFile path respOk.Body
        ∧ (sampleClient.DownloadFile "c" "r" "f" "" none netOk fsOk).result =
          .ok ()) :=
  ⟨(downloadFile_status_check sampleClient "c" "r" "f" "" none net404 fsOk
      resp404 rfl).1 (by decide),
   (downloadFile_status_check sampleClient "c" "r" "f" "" none netOk fsOk
      respOk rfl).2 (by decide) rfl rfl⟩

/-- C9: with a non-nil, non-empty query map, the URL `DownloadFile` executes
carries `?` plus the encoded query twice — once appended inside `MakeURL`
and once more by `DownloadFile` itself. -/
theorem downloadFile_query_appended_twice (r : RestHttp)
    (container resource savePath accept : String) (q : QueryValues)
    (env : NetEnv) (fs : FsEnv) (hq : q ≠ []) :
    (r.DownloadFile container resource savePath accept (some q) env fs).url =
      r.MakeURL container (replaceBackslashes resource) none
        ++ "?" ++ encodeValues q ++ "?" ++ encodeValues q := by
  have hurl : r.MakeURL container (replaceBackslashes resource) (some q) =
      r.MakeURL container (replaceBackslashes resource) none
        ++ "?" ++ encodeValues q := rfl
  unfold RestHttp.DownloadFile
  cases hdo : env.doResult with
  | error e => simp [hq, hurl]
  | ok resp =>
    by_cases h : 300 ≤ resp.StatusCode
    · simp [hq, hurl, h]
    · cases hc : fs.createResult with
      | error e => simp [hq, hurl, h, hc]
      | ok u => cases hcp : fs.copyResult with
        | error e => simp [hq, hurl, h, hc, hcp]
        | ok u => simp [hq, hurl, h, hc, hcp]

/-- C9 witness: the double query string on a concrete one-key map. -/
theorem downloadFile_query_appended_twice_witness :
    ([("k", ["v"])] : QueryValues) ≠ []
    ∧ (sampleClient.DownloadFile "c" "a\\b" "" "" (some [("k", ["v"])])
        net404 fsOk).url =
      sampleClient.MakeURL "c" (replaceBackslashes "a\\b") none
        ++ "?" ++ encodeValues [("k", ["v"])]
        ++ "?" ++ encodeValues [("k", ["v"])]
    ∧ (sampleClient.DownloadFile "c" "a\\b" "" "" (some [("k", ["v"])])
        net404 fsOk).url = "http://h/c/a/b?k=v?k=v" :=
  ⟨by decide,
   downloadFile_query_appended_twice sampleClient "c" "a\\b" "" ""
     [("k", ["v"])] net404 fsOk (by decide),
   by decide⟩

/-- C2 evidence: in the four verb methods a non-empty `accept` is `Set`
(overwrite) before the additive merge, so the executed `Accept` header is
the explicit value followed by the defaults — both present.  In
`DownloadFile`, however, the `accept` argument is set only on the cloned
header object that is never attached to the request: the executed request
carries the defaults alone and the explicit value is absent. -/
theorem accept_overwrite_before_merge (r : RestHttp)
    (container resource accept : String) (q : Option QueryValues)
    (params : QueryValues) (tl : Bool) (env : NetEnv) :
    ((r.GetRequest container resource q accept tl env).headers "Accept" =
      (if accept = "" then [] else [accept]) ++ r.BaseHeaders "Accept")
    ∧ ((r.PostRequest container resource params accept env).headers "Accept" =
      (if accept = "" then [] else [accept]) ++ r.BaseHeaders "Accept")
    ∧ ((r.PutRequest container resource params accept env).headers "Accept" =
      (if accept = "" then [] else [accept]) ++ r.BaseHeaders "Accept")
    ∧ ((r.DeleteRequest container resource q accept env).headers "Accept" =
      (if accept = "" then [] else [accept]) ++ r.BaseHeaders "Accept")
    ∧ (sampleClient.DownloadFile "c" "r" "f" "application/xml" none net404
        fsOk).headers "Accept" = ["application/json"]
    ∧ "application/xml" ∉
        (sampleClient.DownloadFile "c" "r" "f" "application/xml" none net404
          fsOk).headers "Accept"
    ∧ (sampleClient.GetRequest "c" "r" none "application/xml" false
        net404).headers "Accept" = ["application/xml", "application/json"] := by
  refine ⟨?_, ?_, ?_, ?_, by decide, by decide, by decide⟩ <;>
    by_cases ha : accept = "" <;>
      simp [RestHttp.GetRequest, RestHttp.PostRequest, RestHttp.PutRequest,
        RestHttp.DeleteRequest, RestHttp.setHeaders, Header.set, Header.empty,
        ha]

/-! Environments for the upload evaluations: one where only path `a`
exists, one where every path exists. -/

def uploadEnvPartial : UploadEnv :=
  { openFile := fun p => if p = "a" then some [1] else none,
    doResult := .ok respOk, readResult := .ok () }

def uploadEnvAll : UploadEnv :=
  { openFile := fun _ => some [1], doResult := .ok respOk,
    readResult := .ok () }

/-- C1 evidence: in `UploadFiles` over the map `{a ↦ _, b ↦ _}` where
opening `b` fails, no request is issued (as claimed) but the already-opened
handle for `a` is still open when the call returns; and on full success all
opened handles are still open at return — the close callbacks only run on
the transport/read error paths. -/
theorem uploadFiles_leaks_open_handles :
    ((sampleClient.UploadFiles "c" [("a", ""), ("b", "")] "" uploadEnvPartial
        "B").requestIssued = false
    ∧ (sampleClient.UploadFiles "c" [("a", ""), ("b", "")] "" uploadEnvPartial
        "B").result = .error (.openFailed "b")
    ∧ (sampleClient.UploadFiles "c" [("a", ""), ("b", "")] "" uploadEnvPartial
        "B").openAtReturn = ["a"])
    ∧ ((sampleClient.UploadFiles "c" [("a", ""), ("b", "")] "" uploadEnvAll
        "B").result = .ok respOk.Body
    ∧ (sampleClient.UploadFiles "c" [("a", ""), ("b", "")] "" uploadEnvAll
        "B").openAtReturn = ["a", "b"]
    ∧ (sampleClient.UploadFiles "c" [("a", ""), ("b", "")] "" uploadEnvAll
        "B").requestIssued = true) := by
  refine ⟨⟨?_, ?_, ?_⟩, ?_, ?_, ?_⟩ <;> rfl

/-- C7: `UploadFileMP` on a missing source fails with the `file not found`
error naming the path and issues no request; on an existing source with an
empty destination name, the multipart file part is named by the source's
base name. -/
theorem uploadFileMP_not_found_and_default_name (r : RestHttp)
    (container src dstName ct : String) (env : UploadEnv)
    (boundary : String) :
    (env.openFile src = none →
      (r.UploadFileMP container src dstName ct env boundary).result =
        .error (.notFound src)
      ∧ (r.UploadFileMP container src dstName ct env boundary).requestIssued
        = false)
    ∧ (∀ content, env.openFile src = some content →
      (r.UploadFileMP container src "" ct env boundary).formFileNames =
        [filepathBase src]) := by
  constructor
  · intro h
    have hex : fileExists env src = false := by simp [fileExists, h]
    constructor <;> simp [RestHttp.UploadFileMP, hex]
  · intro content h
    have hex : fileExists env src = true := by simp [fileExists, h]
    unfold RestHttp.UploadFileMP
    simp only [hex, h]
    cases env.doResult with
    | error e => simp
    | ok resp => cases env.readResult with
      | error e => simp
      | ok u => simp

/-- C7 witness: the not-found failure on path `b` and the defaulted part
name for source `d/e.txt`. -/
theorem uploadFileMP_not_found_and_default_name_witness :
    ((sampleClient.UploadFileMP "c" "b" "d" "" uploadEnvPartial "B").result =
        .error (.notFound "b")
      ∧ (sampleClient.UploadFileMP "c" "b" "d" "" uploadEnvPartial
          "B").requestIssued = false)
    ∧ (sampleClient.UploadFileMP "c" "d/e.txt" "" "" uploadEnvAll
        "B").formFileNames = [filepathBase "d/e.txt"]
    ∧ (sampleClient.UploadFileMP "c" "d/e.txt" "" "" uploadEnvAll
        "B").formFileNames = ["e.txt"] :=
  ⟨(uploadFileMP_not_found_and_default_name sampleClient "c" "b" "d" ""
      uploadEnvPartial "B").1 rfl,
   (uploadFileMP_not_found_and_default_name sampleClient "c" "d/e.txt" "" ""
      uploadEnvAll "B").2 [1] rfl,
   by decide⟩

/-- C10: the `Content-Type` the upload methods attach to the request is the
multipart writer's boundary content type followed by whatever the defaults
merge in, for every `contentType` argument — the argument (and the
`application/octet.stream` default `UploadFileMP` substitutes for an empty
one) never reaches the request. -/
theorem upload_content_type_is_boundary (r : RestHttp)
    (container resource srcFilePath dstName contentType : String)
    (params : QueryValues) (file : GoFile) (env : UploadEnv)
    (boundary : String) (content : Bytes)
    (hopen : env.openFile srcFilePath = some content) :
    (∃ h, (r.UploadFile container resource params contentType file env
        boundary).headers = some h
      ∧ h "Content-Type" =
          formDataContentType boundary :: r.BaseHeaders "Content-Type")
    ∧ (∃ h, (r.UploadFileMP container srcFilePath dstName contentType env
        boundary).headers = some h
      ∧ h "Content-Type" =
          formDataContentType boundary :: r.BaseHeaders "Content-Type") := by
  have hval : (r.setHeaders (Header.empty.set "Content-Type"
      (formDataContentType boundary))) "Content-Type" =
      formDataContentType boundary :: r.BaseHeaders "Content-Type" := by
    simp [RestHttp.setHeaders, Header.set, Header.empty]
  constructor
  · refine ⟨r.setHeaders (Header.empty.set "Content-Type"
      (formDataContentType boundary)), ?_, hval⟩
    unfold RestHttp.UploadFile
    cases env.doResult with
    | error e => rfl
    | ok resp => cases env.readResult with
      | error e => rfl
      | ok u => rfl
  · refine ⟨r.setHeaders (Header.empty.set "Content-Type"
      (formDataContentType boundary)), ?_, hval⟩
    have hex : fileExists env srcFilePath = true := by
      simp [fileExists, hopen]
    unfold RestHttp.UploadFileMP
    simp only [hex, Bool.not_eq_true, Bool.true_eq_false, if_false, hopen,
      if_true]
    cases env.doResult with
    | error e => simp
    | ok resp => cases env.readResult with
      | error e => simp
      | ok u => simp

/-- C10 witness: concrete boundary content type on both upload variants
with an explicit (ignored) `text/plain` argument. -/
theorem upload_content_type_is_boundary_witness :
    (∃ h, (sampleClient.UploadFile "c" "r" [] "text/plain" ⟨"f.txt", [1]⟩
        uploadEnvAll "B").headers = some h
      ∧ h "Content-Type" =
          formDataContentType "B" :: sampleClient.BaseHeaders "Content-Type")
    ∧ (∃ h, (sampleClient.UploadFileMP "c" "a" "" "text/plain" uploadEnvAll
        "B").headers = some h
      ∧ h "Content-Type" =
          formDataContentType "B" :: sampleClient.BaseHeaders "Content-Type") :=
  upload_content_type_is_boundary sampleClient "c" "r" "a" "" "text/plain"
    [] ⟨"f.txt", [1]⟩ uploadEnvAll "B" [1] rfl

/-- C8: `NewRestHttp` stores the base URL with all trailing slashes
stripped (the input is the stored value plus some run of slashes, and the
stored value does not end in a slash), always defaults `Accept`, and, when
both credentials are non-empty, sets `Authorization` to `Basic` plus the
base64 of `user:password`. -/
theorem newRestHttp_spec (baseURL user password : String) (ssl dbg : Bool)
    (t : Int) :
    (∃ n, baseURL.data =
      (NewRestHttp baseURL user password ssl dbg t).BaseURL.data
        ++ List.replicate n '/')
    ∧ (NewRestHttp baseURL user password ssl dbg t).BaseURL.data.getLast? ≠
        some '/'
    ∧ (NewRestHttp baseURL user password ssl dbg t).BaseHeaders "Accept" =
        ["application/json"]
    ∧ (user ≠ "" → password ≠ "" →
      (NewRestHttp baseURL user password ssl dbg t).BaseHeaders
          "Authorization" =
        ["Basic " ++ base64Encode (strBytes (user ++ ":" ++ password))]) := by
  have hbase : (NewRestHttp baseURL user password ssl dbg t).BaseURL.data =
      (baseURL.data.reverse.dropWhile (· == '/')).reverse := by
    by_cases hc : user ≠ "" ∧ password ≠ "" <;>
      simp [NewRestHttp, goTrimRight, hc]
  refine ⟨?_, ?_, ?_, ?_⟩
  · refine ⟨(baseURL.data.reverse.takeWhile (· == '/')).length, ?_⟩
    rw [hbase]
    conv_lhs => rw [← List.reverse_reverse baseURL.data,
      ← List.takeWhile_append_dropWhile (· == '/') baseURL.data.reverse]
    rw [List.reverse_append]
    congr 1
    rw [List.eq_replicate_iff]
    refine ⟨List.length_reverse _, fun b hb => ?_⟩
    have hb' : b ∈ baseURL.data.reverse.takeWhile (· == '/') :=
      List.mem_reverse.mp hb
    have := List.mem_takeWhile_imp hb'
    simpa using this
  · intro hcon
    rw [hbase, List.getLast?_reverse] at hcon
    have := head_dropWhile_false _ hcon
    simp at this
  · by_cases hc : user ≠ "" ∧ password ≠ "" <;>
      simp [NewRestHttp, Header.set, Header.empty, hc]
  · intro hu hp
    simp [NewRestHttp, Header.set, Header.empty, hu, hp]

/-- C8 witness: two trailing slashes stripped and the basic-auth value for
`u:p` (whose base64 is `dTpw`). -/
theorem newRestHttp_spec_witness :
    ("u" : String) ≠ "" ∧ ("p" : String) ≠ ""
    ∧ (NewRestHttp "http://x//" "u" "p" true false 0).BaseHeaders
        "Authorization" =
      ["Basic " ++ base64Encode (strBytes ("u" ++ ":" ++ "p"))]
    ∧ (NewRestHttp "http://x//" "u" "p" true false 0).BaseHeaders
        "Authorization" = ["Basic dTpw"]
    ∧ (NewRestHttp "http://x//" "u" "p" true false 0).BaseURL = "http://x"
    ∧ (∃ n, ("http://x//" : String).data =
        (NewRestHttp "http://x//" "u" "p" true false 0).BaseURL.data
          ++ List.replicate n '/')
    ∧ (NewRestHttp "http://x//" "u" "p" true false 0).BaseHeaders "Accept" =
        ["application/json"] :=
  ⟨by decide, by decide,
   (newRestHttp_spec "http://x//" "u" "p" true false 0).2.2.2 (by decide)
     (by decide),
   by decide, by decide,
   (newRestHttp_spec "http://x//" "u" "p" true false 0).1,
   (newRestHttp_spec "http://x//" "u" "p" true false 0).2.2.1⟩

end Resthttp
